import Mathlib

/-!
Verification of the keyword-analysis core of the Medical Report Analyzer
(`src/pages/MedicalReportAnalyzer.jsx`).  Text content is modelled as
`List Char`; JavaScript string primitives (`toLowerCase` restricted to the
ASCII range that the fixed vocabulary uses, `includes`, global regex
occurrence counting, `split`, `join`, `trim`) are embedded as executable
functions on character lists, and the four fixed key-information regular
expressions are run by a small backtracking matcher with JavaScript
semantics (leftmost match, greedy single-character classes).
-/

/-- Character-list strings, the carrier for all analyzed text. -/
abbrev Str := List Char

/-- ASCII lowercasing of one character, as `toLowerCase` acts on the
letters relevant to the fixed vocabulary (codes 65-90 map to 97-122). -/
def lowerChar (c : Char) : Char :=
  if 65 ≤ c.toNat ∧ c.toNat ≤ 90 then Char.ofNat (c.toNat + 32) else c

/-- `content.toLowerCase()` on the modelled character range. -/
def lowerL (s : Str) : Str := s.map lowerChar

/-- Whether `needle` is a leading prefix of `hay` (helper for `includes`
and for occurrence counting). -/
def startsWithL : Str → Str → Bool
  | [], _ => true
  | _ :: _, [] => false
  | a :: as, b :: bs => a = b && startsWithL as bs

/-- JavaScript `hay.includes(needle)`: substring presence. -/
def containsL : Str → Str → Bool
  | [], needle => startsWithL needle []
  | h :: t, needle => startsWithL needle (h :: t) || containsL t needle

/-- Non-overlapping left-to-right occurrence counting, as a global regex
match performs it: after a hit the scan resumes past the matched text.
`skip` is the number of positions still covered by the previous hit.
Only meaningful for non-empty needles (every vocabulary term is). -/
def countOccsAux (needle : Str) : Str → Nat → Nat
  | [], _ => 0
  | _ :: t, skip + 1 => countOccsAux needle t skip
  | h :: t, 0 =>
    if startsWithL needle (h :: t) && !needle.isEmpty then
      countOccsAux needle t (needle.length - 1) + 1
    else
      countOccsAux needle t 0

/-- Number of matches of `content.match(new RegExp(needle, "g"))`. -/
def countOccs (needle hay : Str) : Nat := countOccsAux needle hay 0

/-- The fixed dictionary type of lines 22-31. -/
structure Vocabulary where
  conditions : List Str
  riskFactors : List Str

/-- The apostrophe character (code 39) appearing in one vocabulary term. -/
def apostrophe : Char := Char.ofNat 39

/-- The inline `MEDICAL_TERMS` dictionary (lines 22-31). -/
def MEDICAL_TERMS : Vocabulary :=
  { conditions :=
      [ "diabetes".data, "hypertension".data, "cancer".data,
        "heart disease".data, "arthritis".data, "asthma".data,
        "depression".data, "alzheimer".data ++ [apostrophe, 's'] ]
    riskFactors :=
      [ "obesity".data, "smoking".data, "alcohol".data,
        "sedentary lifestyle".data, "high cholesterol".data,
        "family history".data ] }

/-- `calculateConfidence` (lines 162-165): count the case-insensitive
global-regex matches of `term` in `content` and return
`Math.min(count * 20, 100)`.  The `gi` flags make the count
case-insensitive, embedded by lowercasing both sides. -/
def calculateConfidence (content term : Str) : Nat :=
  min (countOccs (lowerL term) (lowerL content) * 20) 100

/-- The arithmetic shape of the confidence score as the spec states it. -/
def confFormula (n : Nat) : Nat := min (n * 20) 100

/-- One greedily quantified single-character class of a regular
expression: characters satisfying `p`, repeated between `lo` and `hi`
times (`none` = unbounded). -/
structure RElem where
  p : Char → Bool
  lo : Nat
  hi : Option Nat

/-- All remainders of `s` after `e` consumes a leading run, listed in
backtracking priority order (greedy: longest first). -/
def elemRems (e : RElem) (s : Str) : List Str :=
  let m := (s.takeWhile e.p).length
  let u := match e.hi with
    | none => m
    | some h => min h m
  if u < e.lo then [] else (List.range (u + 1 - e.lo)).map (fun i => s.drop (u - i))

/-- All remainders after a sequence of elements matches a prefix of `s`,
in backtracking priority order (later elements vary fastest). -/
def seqRems : List RElem → Str → List Str
  | [], s => [s]
  | e :: es, s => ((elemRems e s).map (seqRems es)).flatten

/-- Try the pattern `pre` then the capturing group `grp` anchored at `s`;
return the text the group consumes for the highest-priority full match. -/
def matchHere (pre grp : List RElem) (s : Str) : Option Str :=
  (seqRems pre s).findSome? fun r1 =>
    (seqRems grp r1).head?.map fun r2 => r1.take (r1.length - r2.length)

/-- JavaScript `content.match(re)` for an unanchored regex with one
capturing group: scan start positions left to right, return the
captured group of the first match. -/
def searchCapture (pre grp : List RElem) : Str → Option Str
  | [] => matchHere pre grp []
  | c :: t =>
    match matchHere pre grp (c :: t) with
    | some cap => some cap
    | none => searchCapture pre grp t

/-- The regex whitespace class `\s` (the code points JavaScript accepts). -/
def jsSpace (c : Char) : Bool :=
  c = ' ' || c = Char.ofNat 9 || c = Char.ofNat 10 || c = Char.ofNat 11 ||
  c = Char.ofNat 12 || c = Char.ofNat 13 || c = Char.ofNat 160 ||
  c = Char.ofNat 0x1680 || (0x2000 ≤ c.toNat && c.toNat ≤ 0x200a) ||
  c = Char.ofNat 0x2028 || c = Char.ofNat 0x2029 || c = Char.ofNat 0x202f ||
  c = Char.ofNat 0x205f || c = Char.ofNat 0x3000 || c = Char.ofNat 0xfeff

/-- The class `[:\s]` used after each label. -/
def colonOrSpace (c : Char) : Bool := c = ':' || jsSpace c

/-- The class `\d`. -/
def digitB (c : Char) : Bool := '0' ≤ c && c ≤ '9'

/-- The class `[^\n]`. -/
def notNewline (c : Char) : Bool := !(c = Char.ofNat 10)

/-- The dash-or-slash class of the date pattern. -/
def dashOrSlash (c : Char) : Bool := c = '-' || c = '/'

/-- A case-insensitive literal character (the `i` flag). -/
def litE (c : Char) : RElem := ⟨fun x => lowerChar x = lowerChar c, 1, some 1⟩

/-- A case-insensitive literal word. -/
def litSeq (s : Str) : List RElem := s.map litE

/-- A quantified class element. -/
def clsE (p : Char → Bool) (lo : Nat) (hi : Option Nat) : RElem := ⟨p, lo, hi⟩

/-- One labeled extraction pattern of `keyPatterns` (lines 145-150),
split into the part before the capturing group and the group itself. -/
structure KeyPattern where
  label : Str
  pre : List RElem
  grp : List RElem

/-- `/patient\s*name[:\s]*([^\n]+)/i`. -/
def kpPatientName : KeyPattern :=
  { label := "Patient Name".data
    pre := litSeq ("patient".data) ++ [clsE jsSpace 0 none] ++ litSeq ("name".data) ++
      [clsE colonOrSpace 0 none]
    grp := [clsE notNewline 1 none] }

/-- `/age[:\s]*(\d+)/i`. -/
def kpAge : KeyPattern :=
  { label := "Age".data
    pre := litSeq ("age".data) ++ [clsE colonOrSpace 0 none]
    grp := [clsE digitB 1 none] }

/-- `/gender[:\s]*([^\n]+)/i`. -/
def kpGender : KeyPattern :=
  { label := "Gender".data
    pre := litSeq ("gender".data) ++ [clsE colonOrSpace 0 none]
    grp := [clsE notNewline 1 none] }

/-- The date pattern: `date`, then colons or whitespace, then a group of
one or two digits, dash or slash, one or two digits, dash or slash, and
two to four digits, case-insensitively. -/
def kpDate : KeyPattern :=
  { label := "Date".data
    pre := litSeq ("date".data) ++ [clsE colonOrSpace 0 none]
    grp := [clsE digitB 1 (some 2), clsE dashOrSlash 1 (some 1),
            clsE digitB 1 (some 2), clsE dashOrSlash 1 (some 1),
            clsE digitB 2 (some 4)] }

/-- The four fixed patterns in source order. -/
def keyPatterns : List KeyPattern := [kpPatientName, kpAge, kpGender, kpDate]

/-- JavaScript `String.prototype.trim`: strip whitespace at both ends. -/
def trimL (s : Str) : Str :=
  ((s.dropWhile jsSpace).reverse.dropWhile jsSpace).reverse

/-- One `(label, value)` entry of the extraction output. -/
structure KeyInfo where
  label : Str
  value : Str
deriving DecidableEq

/-- The value one pattern yields on `content`: the first captured group
trimmed of whitespace, or the literal text when no match. -/
def extractedValue (kp : KeyPattern) (content : Str) : Str :=
  match searchCapture kp.pre kp.grp content with
  | some cap => trimL cap
  | none => "Not Found".data

/-- `extractKeyInformations` (lines 144-159). -/
def extractKeyInformations (content : Str) : List KeyInfo :=
  keyPatterns.map fun kp => ⟨kp.label, extractedValue kp content⟩

/-- JavaScript `Array.prototype.join(sep)` on a list of strings. -/
def joinL (sep : Str) : List Str → Str
  | [] => []
  | x :: t => t.foldl (fun acc y => acc ++ sep ++ y) x

/-- The specialist-consultation recommendation line (line 172). -/
def specialistRec (conditions : List Str) : Str :=
  "Consult a specialist for detailed evaluation of: ".data ++ joinL (", ".data) conditions

/-- The lifestyle-modification recommendation line (line 176). -/
def lifestyleRec (riskFactors : List Str) : Str :=
  "Consider lifestyle modifications to address risk factors: ".data ++
    joinL (", ".data) riskFactors

/-- The generic check-up recommendation line (line 177). -/
def checkupRec : Str :=
  "Recommend comprehensive health check-up and personalized health plan".data

/-- The default recommendation line (line 181). -/
def defaultRec : Str :=
  "No specific recommendations based on the current report".data

/-- `generateRecommendations` (lines 168-185): push a specialist line if
any condition matched, two further lines if any risk factor matched, and
fall back to the single default line when nothing was pushed. -/
def generateRecommendations (conditions riskFactors : List Str) : List Str :=
  let recommendations :=
    (if conditions.length > 0 then [specialistRec conditions] else []) ++
    (if riskFactors.length > 0 then [lifestyleRec riskFactors, checkupRec] else [])
  if recommendations.length = 0 then [defaultRec] else recommendations

/-- Recognizer for the specialist-consultation recommendation line. -/
def isSpecLine (s : Str) : Bool := startsWithL ("Consult a specialist".data) s

/-- Recognizer for the two lines emitted for risk factors: the
lifestyle-modification line and the generic check-up line. -/
def isLifestyleLine (s : Str) : Bool :=
  startsWithL ("Consider lifestyle".data) s || startsWithL ("Recommend comprehensive".data) s

/-- One entry of `potentialConditions`. -/
structure Condition where
  name : Str
  confidence : Nat
deriving DecidableEq

/-- The matched condition terms (lines 114-116). -/
def medicalTermsOf (content : Str) : List Str :=
  MEDICAL_TERMS.conditions.filter fun term => containsL (lowerL content) (lowerL term)

/-- The scored conditions (lines 119-122). -/
def potentialConditionsOf (content : Str) : List Condition :=
  (medicalTermsOf content).map fun condition =>
    ⟨condition, calculateConfidence (lowerL content) condition⟩

/-- The matched risk-factor terms (lines 125-127). -/
def riskFactorsOf (content : Str) : List Str :=
  MEDICAL_TERMS.riskFactors.filter fun factor => containsL (lowerL content) (lowerL factor)

/-- Two-digit decimal rendering of a number below 100. -/
def twoDigits (m : Nat) : Str :=
  if m < 10 then '0' :: (toString m).data else (toString m).data

/-- The displayed size string (line 134): `(size / 1024).toFixed(2)`
followed by a space and `KB`.  For any byte count below 2 to the 53rd the
binary quotient is exact, and `toFixed(2)` rounds it half-up to two
decimals, so the printed centikilobyte count is the rounded
`25 * size / 256`. -/
def formatFileSize (size : Nat) : Str :=
  let n := (25 * size + 128) / 256
  (toString (n / 100)).data ++ ['.'] ++ twoDigits (n % 100) ++ " KB".data

/-- The record produced on each upload (lines 9-17 and 132-140). -/
structure AnalysisResult where
  fileType : Str
  fileSize : Str
  keyInformations : List KeyInfo
  medicalTerms : List Str
  potentialConditions : List Condition
  riskFactors : List Str
  recommendations : List Str
deriving DecidableEq

/-- The computation of `performDetailedAnalysis` (lines 107-141) given
the declared MIME type and byte size it stores in the record.  The source
reads those two values from the `reportFile` render state when it
assembles the record on lines 132-134; `performDetailedAnalysisJS` below
models that read on top of this function. -/
def performDetailedAnalysis (ftype : Str) (size : Nat) (content : Str) : AnalysisResult :=
  let lowerContent := lowerL content
  let keyInformations := extractKeyInformations content
  let medicalTerms :=
    MEDICAL_TERMS.conditions.filter fun term => containsL lowerContent (lowerL term)
  let potentialConditions := medicalTerms.map fun condition =>
    ⟨condition, calculateConfidence lowerContent condition⟩
  let riskFactors :=
    MEDICAL_TERMS.riskFactors.filter fun factor => containsL lowerContent (lowerL factor)
  let recommendations := generateRecommendations medicalTerms riskFactors
  { fileType := ftype
    fileSize := formatFileSize size
    keyInformations := keyInformations
    medicalTerms := medicalTerms
    potentialConditions := potentialConditions
    riskFactors := riskFactors
    recommendations := recommendations }

/-- JavaScript `name.split(sep)` for a one-character separator: the
result is never empty and keeps empty segments. -/
def splitOnL (sep : Char) : Str → List Str
  | [] => [[]]
  | c :: t =>
    match splitOnL sep t with
    | [] => [[c]]
    | h :: r => if c = sep then [] :: h :: r else (c :: h) :: r

/-- Line 38: `file.name.split(".").pop().toLowerCase()`. -/
def fileExtension (name : Str) : Str :=
  lowerL ((splitOnL '.' name).getLastD [])

/-- The CSV conversion performed in `parseCSV` (line 81) on the rows the
external parser delivers: join the fields of each row with one space, then
join the rows with one newline. -/
def parseCSV (rows : List (List Str)) : Str :=
  joinL [Char.ofNat 10] (rows.map fun row => joinL [' '] row)

/-- The Excel conversion performed in `parseExcel` (lines 94-98) on the
per-sheet CSV texts the external library delivers: plain concatenation. -/
def parseExcel (sheets : List Str) : Str := sheets.flatten

/-- An uploaded file as the ingestion layer sees it: its name, declared
MIME type and byte size, plus the outcome each external reader would
deliver for it (the content, or a reader error). -/
structure MRFile where
  name : Str
  ftype : Str
  size : Nat
  textData : Except Str Str
  csvRows : Except Str (List (List Str))
  sheetTexts : Except Str (List Str)

/-- The supported extensions of the `switch` on lines 41-54. -/
def supportedExtensions : List Str :=
  ["txt".data, "csv".data, "xlsx".data, "xls".data]

/-- The error message thrown on line 53. -/
def unsupportedMsg : Str :=
  "Unsupported file type. Please use TXT, CSV, or Excel files.".data

/-- The initial `analysisResults` state (lines 9-17). -/
def emptyResults : AnalysisResult :=
  { fileType := [], fileSize := [], keyInformations := [], medicalTerms := []
    potentialConditions := [], riskFactors := [], recommendations := [] }

/-- The `switch` of `parseFile` (lines 38-54): dispatch on the lowercased
last dot-separated component of the file name and produce the content the
matching reader yields, or the first error thrown. -/
def ingestContent (file : MRFile) : Except Str Str :=
  let ext := fileExtension file.name
  if ext = "txt".data then file.textData
  else if ext = "csv".data then file.csvRows.map parseCSV
  else if ext = "xlsx".data ∨ ext = "xls".data then file.sheetTexts.map parseExcel
  else Except.error unsupportedMsg

/-- The engine TypeError message produced when line 133 reads the type
field of a null `reportFile`. -/
def nullTypeMsg : Str :=
  "Cannot read properties of null (reading ".data ++ [apostrophe] ++ "type".data ++
    [apostrophe, ')']

/-- `performDetailedAnalysis` as the component executes it: the
`reportFile` it reads on lines 133-134 is the render-closure value, which
still holds the previously uploaded file, and is null before the first
upload, where reading its type field throws the TypeError (before
`setAnalysisResults` runs, so no record is produced). -/
def performDetailedAnalysisJS (reportFile : Option MRFile) (content : Str) :
    Except Str AnalysisResult :=
  match reportFile with
  | some f => Except.ok (performDetailedAnalysis f.ftype f.size content)
  | none => Except.error nullTypeMsg

/-- `parseFile` (lines 34-64), as the state transition of one upload: on
success the analysis record is computed and stored with no alert; any
error thrown inside the `try` block, by a reader, the unsupported-type
branch, or the analysis stage itself, is caught, alerted, and leaves the
prior record in place.  `reportFile` is the state value the render
closure captured before this upload.  The pair holds the resulting
`analysisResults` state and the alert, if any. -/
def parseFile (reportFile : Option MRFile) (prior : AnalysisResult) (file : MRFile) :
    AnalysisResult × Option Str :=
  match ingestContent file with
  | Except.ok content =>
    match performDetailedAnalysisJS reportFile content with
    | Except.ok results => (results, none)
    | Except.error e => (prior, some ("Error parsing file: ".data ++ e))
  | Except.error e => (prior, some ("Error parsing file: ".data ++ e))

/-- The component state the claims concern: the `reportFile` and
`analysisResults` `useState` cells (lines 7-17). -/
structure ComponentState where
  reportFile : Option MRFile
  analysisResults : AnalysisResult

/-- The initial component state: no file, empty record. -/
def initialState : ComponentState :=
  { reportFile := none, analysisResults := emptyResults }

/-- `handleFileUpload` (lines 188-194): `setReportFile(file)` commits the
new file for the next render, while the `parseFile(file)` call running in
the current closure still sees the previous `reportFile` value.  Returns
the next component state and the alert, if any. -/
def handleFileUpload (st : ComponentState) (file : MRFile) : ComponentState × Option Str :=
  let r := parseFile st.reportFile st.analysisResults file
  ({ reportFile := some file, analysisResults := r.1 }, r.2)

/-- A plain-text upload whose content names one condition. -/
def fileA : MRFile :=
  ⟨"a.txt".data, "text/plain".data, 8, Except.ok ("diabetes".data),
    Except.ok [], Except.ok []⟩

/-- A second upload with a different declared type and size. -/
def fileB : MRFile :=
  ⟨"b.txt".data, "text/csv".data, 2048, Except.ok ("cancer".data),
    Except.ok [], Except.ok []⟩

/-- The four-line report text the extraction example of the spec names. -/
def janeText : Str :=
  "Patient Name: Jane Doe\nAge: 47\nGender: Female\nDate: 04/02/1990".data

/-- A text that contains all four of those lines plus an earlier
occurrence of an Age field. -/
def ctrText : Str :=
  "Age: 99\nPatient Name: Jane Doe\nAge: 47\nGender: Female\nDate: 04/02/1990".data

/-! Helper lemmas connecting the embedded string primitives to the
standard list predicates. -/

theorem startsWithL_iff (needle hay : Str) : startsWithL needle hay = true ↔ needle <+: hay := by
  induction needle generalizing hay with
  | nil => simp [startsWithL]
  | cons a as ih =>
    cases hay with
    | nil => simp [startsWithL]
    | cons b bs => simp [startsWithL, List.cons_prefix_cons, ih]

theorem containsL_iff (hay needle : Str) : containsL hay needle = true ↔ needle <:+: hay := by
  induction hay with
  | nil => simp [containsL, startsWithL_iff]
  | cons h t ih => simp [containsL, startsWithL_iff, ih, List.infix_cons_iff]

theorem countOccsAux_pos (needle : Str) (h0 : needle ≠ []) :
    ∀ hay : Str, needle <:+: hay → 0 < countOccsAux needle hay 0 := by
  intro hay
  induction hay with
  | nil =>
    intro h
    exact absurd (List.infix_nil.mp h) h0
  | cons c t ih =>
    intro h
    by_cases hs : startsWithL needle (c :: t) = true
    · simp [countOccsAux, hs, h0]
    · have ht : needle <:+: t := by
        rcases List.infix_cons_iff.mp h with hp | hi
        · exact absurd ((startsWithL_iff _ _).mpr hp) hs
        · exact hi
      simpa [countOccsAux, hs] using ih ht

theorem startsWithL_append (needle hay x : Str) (hlen : needle.length ≤ hay.length) :
    startsWithL needle (hay ++ x) = startsWithL needle hay := by
  induction needle generalizing hay with
  | nil => simp [startsWithL]
  | cons a as ih =>
    cases hay with
    | nil => simp at hlen
    | cons b bs =>
      have h := ih bs (by simpa using hlen)
      simp [startsWithL, h]

theorem toNat_ofNat_of_valid (n : Nat) (h : n.isValidChar) : (Char.ofNat n).toNat = n := by
  simp [Char.ofNat, h, Char.ofNatAux, Char.toNat, UInt32.toNat, BitVec.toNat_ofNatLt]

theorem lowerChar_toNat (c : Char) :
    (lowerChar c).toNat = if 65 ≤ c.toNat ∧ c.toNat ≤ 90 then c.toNat + 32 else c.toNat := by
  unfold lowerChar
  split
  · rename_i h
    exact toNat_ofNat_of_valid _ (Or.inl (by omega))
  · rfl

theorem lowerChar_eq_self {c : Char} (h : ¬(65 ≤ c.toNat ∧ c.toNat ≤ 90)) :
    lowerChar c = c := by
  unfold lowerChar
  rw [if_neg h]

theorem lowerChar_idem (c : Char) : lowerChar (lowerChar c) = lowerChar c := by
  apply lowerChar_eq_self
  rw [lowerChar_toNat]
  split <;> omega

theorem lowerL_idem (s : Str) : lowerL (lowerL s) = lowerL s := by
  induction s with
  | nil => rfl
  | cons c t ih =>
    simp only [lowerL, List.map_cons] at ih ⊢
    rw [lowerChar_idem]
    exact congrArg _ ih

theorem foldl_joinL_init (sep a b : Str) (t : List Str) :
    t.foldl (fun acc y => acc ++ sep ++ y) (a ++ b) =
      a ++ t.foldl (fun acc y => acc ++ sep ++ y) b := by
  induction t generalizing b with
  | nil => simp
  | cons z zs ih =>
    rw [List.foldl_cons, List.foldl_cons]
    show zs.foldl _ (a ++ b ++ sep ++ z) = a ++ zs.foldl _ (b ++ sep ++ z)
    rw [show a ++ b ++ sep ++ z = a ++ (b ++ sep ++ z) by simp [List.append_assoc]]
    exact ih (b ++ sep ++ z)

theorem joinL_eq_intercalate (sep : Str) : ∀ xs : List Str, joinL sep xs = List.intercalate sep xs
  | [] => rfl
  | [x] => by simp [joinL, List.intercalate]
  | x :: y :: t => by
    have ih := joinL_eq_intercalate sep (y :: t)
    rw [joinL, List.foldl_cons]
    show t.foldl _ (x ++ sep ++ y) = _
    rw [foldl_joinL_init sep (x ++ sep) y t]
    rw [show t.foldl (fun acc z => acc ++ sep ++ z) y = joinL sep (y :: t) from rfl, ih]
    simp [List.intercalate, List.append_assoc]

theorem isSpecLine_specialist (c : List Str) : isSpecLine (specialistRec c) = true := by
  rw [isSpecLine, specialistRec, startsWithL_append _ _ _ (by decide)]
  decide

theorem isSpecLine_lifestyle (r : List Str) : isSpecLine (lifestyleRec r) = false := by
  rw [isSpecLine, lifestyleRec, startsWithL_append _ _ _ (by decide)]
  decide

theorem isSpecLine_checkup : isSpecLine checkupRec = false := by decide

theorem isSpecLine_default : isSpecLine defaultRec = false := by decide

theorem isLifestyleLine_specialist (c : List Str) : isLifestyleLine (specialistRec c) = false := by
  rw [isLifestyleLine, specialistRec, startsWithL_append _ _ _ (by decide),
    startsWithL_append _ _ _ (by decide)]
  decide

theorem isLifestyleLine_lifestyle (r : List Str) : isLifestyleLine (lifestyleRec r) = true := by
  rw [isLifestyleLine, lifestyleRec, startsWithL_append _ _ _ (by decide),
    startsWithL_append _ _ _ (by decide)]
  decide

theorem isLifestyleLine_checkup : isLifestyleLine checkupRec = true := by decide

theorem isLifestyleLine_default : isLifestyleLine defaultRec = false := by decide

theorem conditions_lower_fixed : ∀ t ∈ MEDICAL_TERMS.conditions, lowerL t = t := by decide

theorem conditions_ne_nil : ∀ t ∈ MEDICAL_TERMS.conditions, t ≠ [] := by decide

theorem riskFactors_lower_fixed : ∀ t ∈ MEDICAL_TERMS.riskFactors, lowerL t = t := by decide

/-! The claims. -/

/-- C1: for every content string and every condition the analyzer
matched, the stored confidence equals `min(20 * n, 100)` where `n` is the
number of case-insensitive occurrences of the term in the content; the
formula is monotone in the occurrence count, never exceeds 100, and six
occurrences of `diabetes` yield 100, not 120. -/
theorem claim_confidence_formula :
    (∀ (content : Str), ∀ pc ∈ potentialConditionsOf content,
      pc.confidence = confFormula (countOccs pc.name (lowerL content))) ∧
    (∀ m n, m ≤ n → confFormula m ≤ confFormula n) ∧
    (∀ n, confFormula n ≤ 100) ∧
    confFormula 6 = 100 ∧
    calculateConfidence
      (lowerL ("diabetes diabetes diabetes diabetes diabetes diabetes".data))
      "diabetes".data = 100 := by
  refine ⟨?_, ?_, ?_, rfl, by decide⟩
  · intro content pc hpc
    rw [potentialConditionsOf, List.mem_map] at hpc
    obtain ⟨t, ht, rfl⟩ := hpc
    rw [medicalTermsOf] at ht
    have htv := (List.mem_filter.mp ht).1
    have hlow := conditions_lower_fixed t htv
    show min (countOccs (lowerL t) (lowerL (lowerL content)) * 20) 100 =
      confFormula (countOccs t (lowerL content))
    rw [hlow, lowerL_idem]
    rfl
  · intro m n h
    unfold confFormula
    omega
  · intro n
    unfold confFormula
    omega

theorem claim_confidence_formula_witness :
    (Condition.mk ("diabetes".data) 20).confidence =
      confFormula (countOccs ("diabetes".data) (lowerL ("diabetes".data))) ∧
    confFormula 2 ≤ confFormula 6 :=
  ⟨claim_confidence_formula.1 ("diabetes".data) ⟨"diabetes".data, 20⟩ (by decide),
   claim_confidence_formula.2.1 2 6 (by decide)⟩

/-- C2: a vocabulary condition term is in `medicalTerms` exactly when the
lowercased content contains it as a substring, likewise risk factors, and
both outputs are sublists of their vocabulary (vocabulary order, no other
elements). -/
theorem claim_term_matching (content : Str) :
    (∀ t ∈ MEDICAL_TERMS.conditions,
      t ∈ medicalTermsOf content ↔ t <:+: lowerL content) ∧
    List.Sublist (medicalTermsOf content) MEDICAL_TERMS.conditions ∧
    (∀ t ∈ MEDICAL_TERMS.riskFactors,
      t ∈ riskFactorsOf content ↔ t <:+: lowerL content) ∧
    List.Sublist (riskFactorsOf content) MEDICAL_TERMS.riskFactors := by
  refine ⟨?_, List.filter_sublist _, ?_, List.filter_sublist _⟩
  · intro t ht
    rw [medicalTermsOf, List.mem_filter, conditions_lower_fixed t ht, containsL_iff]
    simp [ht]
  · intro t ht
    rw [riskFactorsOf, List.mem_filter, riskFactors_lower_fixed t ht, containsL_iff]
    simp [ht]

theorem claim_term_matching_witness :
    "diabetes".data ∈ medicalTermsOf ("Diabetes and Smoking history".data) ∧
    "smoking".data ∈ riskFactorsOf ("Diabetes and Smoking history".data) :=
  ⟨((claim_term_matching _).1 _ (by decide)).mpr (by decide),
   ((claim_term_matching _).2.2.1 _ (by decide)).mpr (by decide)⟩

/-- C3: the recommendations list holds exactly one specialist-consultation
line when conditions matched and none otherwise, exactly two
lifestyle/check-up lines when risk factors matched and none otherwise,
and exactly the single default line when both lists are empty. -/
theorem claim_recommendations_shape (conditions riskFactors : List Str) :
    ((generateRecommendations conditions riskFactors).countP isSpecLine =
      if conditions = [] then 0 else 1) ∧
    ((generateRecommendations conditions riskFactors).countP isLifestyleLine =
      if riskFactors = [] then 0 else 2) ∧
    generateRecommendations [] [] = [defaultRec] := by
  refine ⟨?_, ?_, rfl⟩ <;>
    cases conditions <;> cases riskFactors <;>
      simp [generateRecommendations, isSpecLine_specialist, isSpecLine_lifestyle,
        isSpecLine_checkup, isSpecLine_default, isLifestyleLine_specialist,
        isLifestyleLine_lifestyle, isLifestyleLine_checkup, isLifestyleLine_default,
        List.countP_cons, List.countP_nil]

/-- C4 (counterexample): the input below contains all four lines named by
the claim, yet extraction reports `99` for Age, not `47`, because the Age
pattern matches its first case-insensitive occurrence in the text. -/
theorem claim_extraction_context_counterexample :
    (containsL ctrText ("Patient Name: Jane Doe".data) = true ∧
     containsL ctrText ("Age: 47".data) = true ∧
     containsL ctrText ("Gender: Female".data) = true ∧
     containsL ctrText ("Date: 04/02/1990".data) = true) ∧
    (extractKeyInformations ctrText).map KeyInfo.value =
      ["Jane Doe".data, "99".data, "Female".data, "04/02/1990".data] ∧
    (extractKeyInformations ctrText).map KeyInfo.value ≠
      ["Jane Doe".data, "47".data, "Female".data, "04/02/1990".data] :=
  ⟨by decide, by decide, by decide⟩

/-- C4 (amended): extraction applied to the exact four-line text yields
the four claimed values; on every input the value of each label is computed
from its own pattern alone, as the first captured group trimmed of
whitespace or the literal `Not Found` when the pattern has no match, so a
missing field changes only its own label. -/
theorem claim_extraction_amended :
    extractKeyInformations janeText =
      [⟨"Patient Name".data, "Jane Doe".data⟩, ⟨"Age".data, "47".data⟩,
       ⟨"Gender".data, "Female".data⟩, ⟨"Date".data, "04/02/1990".data⟩] ∧
    (∀ content : Str,
      extractKeyInformations content =
        [⟨"Patient Name".data, extractedValue kpPatientName content⟩,
         ⟨"Age".data, extractedValue kpAge content⟩,
         ⟨"Gender".data, extractedValue kpGender content⟩,
         ⟨"Date".data, extractedValue kpDate content⟩]) ∧
    extractKeyInformations ("Patient Name: Jane Doe\nGender: Female".data) =
      [⟨"Patient Name".data, "Jane Doe".data⟩, ⟨"Age".data, "Not Found".data⟩,
       ⟨"Gender".data, "Female".data⟩, ⟨"Date".data, "Not Found".data⟩] :=
  ⟨by decide, fun content => rfl, by decide⟩

/-- C5: an upload for which the lowercased last dot-separated component of the name is
none of txt, csv, xlsx, xls fails with the unsupported-file-type alert and
leaves the stored analysis record unchanged; more generally every failed
parse leaves the record unchanged. -/
theorem claim_unsupported_extension :
    (∀ (reportFile : Option MRFile) (prior : AnalysisResult) (file : MRFile),
      fileExtension file.name ∉ supportedExtensions →
      parseFile reportFile prior file =
        (prior, some ("Error parsing file: ".data ++ unsupportedMsg))) ∧
    (∀ (reportFile : Option MRFile) (prior : AnalysisResult) (file : MRFile) (e : Str),
      (parseFile reportFile prior file).2 = some e →
      (parseFile reportFile prior file).1 = prior) := by
  constructor
  · intro rf prior file h
    simp only [supportedExtensions, List.mem_cons, List.not_mem_nil, or_false, not_or] at h
    obtain ⟨h1, h2, h3, h4⟩ := h
    have hing : ingestContent file = Except.error unsupportedMsg := by
      simp [ingestContent, h1, h2, h3, h4]
    simp [parseFile, hing]
  · intro rf prior file e h
    cases hc : ingestContent file with
    | ok c =>
      cases hr : performDetailedAnalysisJS rf c with
      | ok results => simp [parseFile, hc, hr] at h
      | error err => simp [parseFile, hc, hr]
    | error err => simp [parseFile, hc]

theorem claim_unsupported_extension_witness :
    parseFile none emptyResults
        ⟨"report.pdf".data, "application/pdf".data, 2048,
          Except.ok [], Except.ok [], Except.ok []⟩ =
      (emptyResults, some ("Error parsing file: ".data ++ unsupportedMsg)) ∧
    (parseFile none emptyResults
        ⟨"b.csv".data, "text/csv".data, 10, Except.ok [],
          Except.error ("read failure".data), Except.ok []⟩).1 = emptyResults :=
  ⟨claim_unsupported_extension.1 _ _ _ (by decide),
   claim_unsupported_extension.2 _ _ _ ("Error parsing file: ".data ++ "read failure".data) rfl⟩

/-- C6: the analysis stage is total: on every content string (with the
declared type and byte size of the file supplied) it produces the
`AnalysisResult` record assembled from its six total components, and the
key-information section always has its four entries. -/
theorem claim_analysis_total (ftype : Str) (size : Nat) (content : Str) :
    performDetailedAnalysis ftype size content =
      { fileType := ftype
        fileSize := formatFileSize size
        keyInformations := extractKeyInformations content
        medicalTerms := medicalTermsOf content
        potentialConditions := potentialConditionsOf content
        riskFactors := riskFactorsOf content
        recommendations :=
          generateRecommendations (medicalTermsOf content) (riskFactorsOf content) } ∧
    (performDetailedAnalysis ftype size content).keyInformations.length = 4 :=
  ⟨rfl, rfl⟩

/-- C7 (code bug): re-uploading the same file does not yield an identical
`AnalysisResult` each time, because `performDetailedAnalysis` reads
`reportFile` from the render closure that called it, which still holds
the previous upload and is null on the first.  Concretely: the very first
upload of a valid file throws a TypeError and stores no record, the
identical second upload succeeds and stores one; and with a different
file in the captured state, uploading the same file stores a different
record whose declared type is the previous upload's. -/
theorem claim_reupload_state_dependence :
    (handleFileUpload initialState fileA).2 =
      some ("Error parsing file: ".data ++ nullTypeMsg) ∧
    (handleFileUpload initialState fileA).1.analysisResults = emptyResults ∧
    (handleFileUpload (handleFileUpload initialState fileA).1 fileA).2 = none ∧
    (handleFileUpload (handleFileUpload initialState fileA).1 fileA).1.analysisResults ≠
      emptyResults ∧
    (handleFileUpload { reportFile := some fileB, analysisResults := emptyResults }
        fileA).1.analysisResults ≠
      (handleFileUpload { reportFile := some fileA, analysisResults := emptyResults }
        fileA).1.analysisResults ∧
    ((handleFileUpload { reportFile := some fileB, analysisResults := emptyResults }
        fileA).1.analysisResults).fileType = "text/csv".data :=
  ⟨rfl, rfl, rfl, by decide, by decide, rfl⟩

/-- C8: the CSV ingestion content equals the parsed rows mapped to
space-joined field strings, joined with single newlines. -/
theorem claim_csv_join (rows : List (List Str)) :
    parseCSV rows =
      List.intercalate [Char.ofNat 10] (rows.map fun row => List.intercalate [' '] row) := by
  show joinL [Char.ofNat 10] (rows.map fun row => joinL [' '] row) = _
  rw [joinL_eq_intercalate,
    show (fun row => joinL [' '] row) = (fun row : List Str => List.intercalate [' '] row)
      from funext fun row => joinL_eq_intercalate [' '] row]

/-- C9: every entry of `potentialConditions` carries a confidence that is
at least 20 and a positive multiple of 20: a listed condition never shows
zero confidence. -/
theorem claim_condition_confidence_positive (content : Str) :
    ∀ pc ∈ potentialConditionsOf content,
      20 ≤ pc.confidence ∧ ∃ k, 1 ≤ k ∧ pc.confidence = 20 * k := by
  intro pc hpc
  rw [potentialConditionsOf, List.mem_map] at hpc
  obtain ⟨t, ht, rfl⟩ := hpc
  rw [medicalTermsOf] at ht
  have htv := (List.mem_filter.mp ht).1
  have hp := (List.mem_filter.mp ht).2
  have hlow := conditions_lower_fixed t htv
  have hne := conditions_ne_nil t htv
  rw [hlow] at hp
  have hinf : t <:+: lowerL content := (containsL_iff _ _).mp hp
  have hinf2 : lowerL t <:+: lowerL (lowerL content) := by
    rw [hlow, lowerL_idem]
    exact hinf
  have hpos : 0 < countOccs (lowerL t) (lowerL (lowerL content)) :=
    countOccsAux_pos _ (by rw [hlow]; exact hne) _ hinf2
  refine ⟨?_, min (countOccs (lowerL t) (lowerL (lowerL content))) 5, ?_, ?_⟩
  · show 20 ≤ min (countOccs (lowerL t) (lowerL (lowerL content)) * 20) 100
    omega
  · omega
  · show min (countOccs (lowerL t) (lowerL (lowerL content)) * 20) 100 = 20 * _
    omega

theorem claim_condition_confidence_positive_witness :
    20 ≤ (Condition.mk ("diabetes".data) 20).confidence ∧
    ∃ k, 1 ≤ k ∧ (Condition.mk ("diabetes".data) 20).confidence = 20 * k :=
  claim_condition_confidence_positive ("diabetes".data) ⟨"diabetes".data, 20⟩ (by decide)

/-- C10: key-information extraction always returns exactly four entries
labeled Patient Name, Age, Gender, Date in that fixed order. -/
theorem claim_extraction_labels_fixed (content : Str) :
    (extractKeyInformations content).map KeyInfo.label =
      ["Patient Name".data, "Age".data, "Gender".data, "Date".data] ∧
    (extractKeyInformations content).length = 4 :=
  ⟨rfl, rfl⟩
